import Mathlib

/-!
Verification of the mt-dot-crash-data pipeline: a shallow embedding of the
milepost parser, multi-year AADT averager, corridor index / crash matcher,
derived-metric engine, geometry projector and geometry-export filter, with
theorems checking the natural-language specification against the code.

Numeric convention: Python floats are modelled as exact rationals (ℚ) for the
tabular pipeline and as reals (ℝ) for the geometry projector (which uses
`math.hypot`, an irrational square root).  A Python value that may be
NaN/missing is an `Option`; a Python function that may raise an uncaught
exception returns `Except Unit`, with `.error ()` standing for the exception.
-/

namespace MtDot

/-! ## Milepost parser (src/merge_traffic.py lines 6-16,
src/new_merge_traffic.py lines 7-16, src/merge-traffic-accidents.py
lines 4-13, src/manually_segment_routes.py lines 6-13) -/

/-- Models Python `str.split(sep)` for a one-character separator: the maximal
runs between separator occurrences, empty runs included, so the result always
has (number of separators + 1) parts. -/
def splitOnChar (sep : Char) : List Char → List (List Char)
  | [] => [[]]
  | c :: rest =>
    match splitOnChar sep rest with
    | [] => [[]]
    | h :: t => if c = sep then [] :: h :: t else (c :: h) :: t

/-- The numeric value of one decimal digit character. -/
def digitVal (c : Char) : ℕ := c.toNat - 48

/-- The value of a decimal digit string, most significant digit first. -/
def digitsVal (l : List Char) : ℕ := l.foldl (fun acc c => 10 * acc + digitVal c) 0

/-- A non-empty, all-digit character list. -/
def isDigits (l : List Char) : Bool := !l.isEmpty && l.all (·.isDigit)

/-- Models Python `float(s)` on the unsigned decimal-literal fragment of its
grammar: `digits`, `digits.digits`, `.digits` or `digits.` (at least one digit
overall).  Other spellings Python would accept (signs, exponents, `inf`,
`nan`, surrounding whitespace) never occur in milepost fields and are treated
as unparsable, i.e. as raising `ValueError`. -/
def parseFloat (s : String) : Option ℚ :=
  match splitOnChar '.' s.toList with
  | [ip] => if isDigits ip then some (digitsVal ip) else none
  | [ip, fp] =>
    if (ip.all (·.isDigit) && fp.all (·.isDigit)) && !(ip.isEmpty && fp.isEmpty) then
      some ((digitsVal ip : ℚ) + (digitsVal fp : ℚ) / 10 ^ fp.length)
    else none
  | _ => none

/-- Python `float(s)` as a fallible call: `.error ()` models `ValueError`. -/
def pyFloat (s : String) : Except Unit ℚ :=
  match parseFloat s with
  | some q => .ok q
  | none => .error ()

/-- Models `parts[0].lstrip('0') or '0'`: strip leading `'0'` characters and
replace an emptied string by `"0"`. -/
def lstripZeroOr0 (l : List Char) : List Char :=
  let t := l.dropWhile (· = '0')
  if t.isEmpty then ['0'] else t

/-- `parse_milepost` of src/merge_traffic.py lines 6-16 (identical in
src/new_merge_traffic.py lines 7-16): `None` for a missing value, split on
`'+'`, require exactly two parts, strip leading zeros from the integer part,
and catch `ValueError` from `float`, returning `None`.  The `try`/`except`
swallows every `ValueError`, so no `.error` value is ever produced. -/
def parse_milepost (mp : Option String) : Except Unit (Option ℚ) :=
  match mp with
  | none => .ok none
  | some s =>
    match splitOnChar '+' s.toList with
    | [p0, p1] =>
      match pyFloat (String.mk (lstripZeroOr0 p0)), pyFloat (String.mk p1) with
      | .ok a, .ok b => .ok (some (a + b))
      | _, _ => .ok none
    | _ => .ok none

/-- `parse_milepost` of src/merge-traffic-accidents.py lines 4-13: like the
canonical parser but without the leading-zero strip; `ValueError` is caught
and becomes `None`. -/
def parse_milepost_accidents (mp : Option String) : Except Unit (Option ℚ) :=
  match mp with
  | none => .ok none
  | some s =>
    match splitOnChar '+' s.toList with
    | [p0, p1] =>
      match pyFloat (String.mk p0), pyFloat (String.mk p1) with
      | .ok a, .ok b => .ok (some (a + b))
      | _, _ => .ok none
    | _ => .ok none

/-- `parse_milepost` of src/manually_segment_routes.py lines 6-13: missing or
empty input gives `None`; with exactly one `'+'` it adds the two operands, and
otherwise it falls back to `float(mp_str)` on the whole string.  There is no
`try`/`except`, so a `ValueError` from `float` propagates (`.error ()`). -/
def parse_milepost_manual (mp : Option String) : Except Unit (Option ℚ) :=
  match mp with
  | none => .ok none
  | some s =>
    if s = "" then .ok none
    else
      match splitOnChar '+' s.toList with
      | [p0, p1] => do
        let a ← pyFloat (String.mk p0)
        let b ← pyFloat (String.mk p1)
        return some (a + b)
      | _ => do
        let v ← pyFloat s
        return some v

/-! ## Multi-year AADT averager (src/merge_traffic.py lines 129-185,
src/new_merge_traffic.py lines 33-57).

Per segment, the fold's state is the running average (`none` = NaN) and the
`YEARS_WITH_DATA` counter.  One year's observation for a segment is
`Option (Option ℚ)`: outer `none` = the segment's key is absent from that
year's table (or the year's file is missing), `some v` = the key is present
with parsed AADT `v` (`v = none` = NaN). -/

structure AvgState where
  aadt : Option ℚ
  years : ℕ
deriving DecidableEq, Repr

/-- One year's update for one segment (the body of the inner loop of
`calculate_averaged_traffic`): only when the key is present, the year's value
is non-null and the running value is non-null does the running average move to
`(current_average * current_years + year_value) / (current_years + 1)` with
the counter incremented; in every other case the state is untouched. -/
def updateYear (s : AvgState) (obs : Option (Option ℚ)) : AvgState :=
  match obs with
  | some (some yearAadt) =>
    match s.aadt with
    | some cur =>
      { aadt := some ((cur * (s.years : ℚ) + yearAadt) / ((s.years : ℚ) + 1)),
        years := s.years + 1 }
    | none => s
  | _ => s

/-- `calculate_averaged_traffic` restricted to one segment: start from the
baseline year's parsed value with `YEARS_WITH_DATA = 1` and fold the
additional years' observations in processing order. -/
def calculate_averaged_traffic (baseAadt : Option ℚ) (obs : List (Option (Option ℚ))) :
    AvgState :=
  obs.foldl updateYear { aadt := baseAadt, years := 1 }

/-- Whether one year's observation advances the counter from state `s`: the
key is present with a non-null value while the running value is non-null. -/
def contributes (s : AvgState) (obs : Option (Option ℚ)) : Bool :=
  match obs, s.aadt with
  | some (some _), some _ => true
  | _, _ => false

/-- How many observations of the list advance the counter, threading the
state through the fold. -/
def contribCount : AvgState → List (Option (Option ℚ)) → ℕ
  | _, [] => 0
  | s, o :: rest => (if contributes s o then 1 else 0) + contribCount (updateYear s o) rest

/-! ## Corridor index and crash matcher (src/merge_traffic.py lines 187-247,
src/new_merge_traffic.py lines 60-89) -/

/-- Python `str.strip()`: drop whitespace from both ends. -/
def pyStrip (l : List Char) : List Char :=
  ((l.dropWhile (·.isWhitespace)).reverse.dropWhile (·.isWhitespace)).reverse

/-- Python `s.strip().upper()`, the id normalization used throughout. -/
def pyStripUpper (s : String) : String :=
  String.mk ((pyStrip s.toList).map Char.toUpper)

/-- The fields of a corridor-index entry the matcher reads. -/
structure RoadSection where
  segment_key : String
  corr_mp_float : Option ℚ
  corr_endmp_float : Option ℚ
deriving DecidableEq, Repr

/-- The corridor index: corridor id → the corridor's segment list in stored
(catalog row) order.  A Python dict is modelled as an association list with
first-match lookup. -/
abbrev CorridorIndex := List (String × List RoadSection)

/-- Dict lookup on an association list. -/
def lookupAssoc {α : Type} (l : List (String × α)) (k : String) : Option α :=
  (l.find? (fun p => p.1 == k)).map Prod.snd

/-- The matcher's containment test for one section: both mileposts parsed and
`start ≤ ref ≤ end`, both bounds inclusive. -/
def sectionContains (ref : ℚ) (sec : RoadSection) : Bool :=
  match sec.corr_mp_float, sec.corr_endmp_float with
  | some a, some b => decide (a ≤ ref) && decide (ref ≤ b)
  | _, _ => false

/-- `match_crash_to_section` (src/merge_traffic.py lines 216-247,
src/new_merge_traffic.py lines 79-89): normalize the crash's corridor id
(strip, uppercase), and with the crash's parsed reference point `refPoint`
(`REF_POINT_FLOAT`; the streamlined variant parses it in place with
`parse_milepost`), return `none` when the reference point is null or the
corridor is not indexed, else scan the corridor's list in stored order for
the first section whose inclusive range contains the point. -/
def match_crash_to_section (rawCorridor : String) (refPoint : Option ℚ)
    (idx : CorridorIndex) : Option RoadSection :=
  let corridor := pyStripUpper rawCorridor
  match refPoint with
  | none => none
  | some ref =>
    match lookupAssoc idx corridor with
    | none => none
    | some secs => secs.find? (sectionContains ref)

/-! ## Derived metrics (src/merge_traffic.py lines 351-369,
src/new_merge_traffic.py lines 182-191, src/merge-traffic-accidents.py
lines 195-204) -/

/-- The derived columns of one output row. -/
structure SegmentMetrics where
  miles_driven : Option ℚ
  avg_crashes : ℚ
  cars_per_acc : Option ℚ
  miles_per_acc : Option ℚ
deriving DecidableEq, Repr

/-- One segment row as the derived-metric step sees it. -/
structure SegmentRow where
  sec_lnt_mi : Option ℚ
  tyc_aadt : Option ℚ
  years_with_data : ℕ
  total_crashes : ℕ
deriving DecidableEq, Repr

/-- The derived-metric computation of `create_simplified_average_output`
(src/merge_traffic.py lines 351-369): `MILES_DRIVEN = SEC_LNT_MI * TYC_AADT`
(null when either factor is null), `AVG_CRASHES = TOTAL_CRASHES /
total_years` with `total_years = len(years)`, and the two per-accident ratios
only on rows with `AVG_CRASHES > 0`, left null elsewhere (a null numerator
keeps the ratio null). -/
def rowMetrics (r : SegmentRow) (totalYears : ℕ) : SegmentMetrics :=
  let miles_driven : Option ℚ :=
    match r.sec_lnt_mi, r.tyc_aadt with
    | some l, some a => some (l * a)
    | _, _ => none
  let avg : ℚ := (r.total_crashes : ℚ) / (totalYears : ℚ)
  { miles_driven := miles_driven
    avg_crashes := avg
    cars_per_acc := if 0 < avg then r.tyc_aadt.map (fun a => a / avg) else none
    miles_per_acc := if 0 < avg then miles_driven.map (fun m => m / avg) else none }

/-- The crash aggregation of src/merge-traffic-accidents.py lines 195-199:
every matched crash carries `CRASHES = 1` and the groupby sums them per
segment key, so a key's aggregated count is its number of occurrences among
the matched keys, and only keys that occur are persisted. -/
def aggCrashes (matchedKeys : List String) : List (String × ℕ) :=
  matchedKeys.dedup.map (fun k => (k, matchedKeys.count k))

/-- `ANNUAL_VMT` of src/new_merge_traffic.py line 188: `MILES_DRIVEN * 365.25`
(365.25 = 1461/4 exactly, as the float literal is), null when `MILES_DRIVEN`
is null. -/
def annual_vmt (miles_driven : Option ℚ) : Option ℚ :=
  miles_driven.map (fun md => md * (1461 / 4 : ℚ))

/-- `PER_100M_VMT` of src/new_merge_traffic.py lines 189-191: initialized to
null and set to `AVG_CRASHES / ANNUAL_VMT * 100_000_000` only on rows where
`ANNUAL_VMT` is non-null and positive. -/
def per_100m_vmt (avgCrashes : ℚ) (miles_driven : Option ℚ) : Option ℚ :=
  match annual_vmt miles_driven with
  | some v => if 0 < v then some (avgCrashes / v * 100000000) else none
  | none => none

/-- Modelled from the spec's words for comparison with the code (§4.5: "A
separate normalized-exposure metric ... annualizes `MILES_DRIVEN` by
calendar-day scaling (`days_per_year × observation_years`) before taking the
rate"): the claimed annualization factor is `365.25 * observationYears`. -/
def per_100m_vmt_claimed (avgCrashes : ℚ) (miles_driven : Option ℚ)
    (observationYears : ℕ) : Option ℚ :=
  miles_driven.map
    (fun md => avgCrashes / (md * (1461 / 4 : ℚ) * (observationYears : ℚ)) * 100000000)

/-! ## Geometry projector (src/new_merge_traffic.py lines 120-159).

Coordinates are modelled in ℝ because `math.hypot` takes a square root. -/

/-- A GeoJSON geometry as `point_on_linestring` inspects it: a `LineString`'s
coordinate list, a `MultiLineString`'s list of parts, or any other type. -/
inductive Geom where
  | lineString (coords : List (ℝ × ℝ))
  | multiLineString (parts : List (List (ℝ × ℝ)))
  | other
deriving Inhabited

/-- `math.hypot`: the Euclidean norm of `(x, y)`. -/
noncomputable def hypot (x y : ℝ) : ℝ := Real.sqrt (x ^ 2 + y ^ 2)

/-- Python `max(parts, key=len)`: the first part of maximal length (later
parts replace the running maximum only when strictly longer). -/
def maxByLen (parts : List (List (ℝ × ℝ))) : List (ℝ × ℝ) :=
  match parts with
  | [] => []
  | p :: rest => rest.foldl (fun best q => if best.length < q.length then q else best) p

/-- Linear interpolation between two vertices at parameter `t`. -/
noncomputable def interpPoint (prev cur : ℝ × ℝ) (t : ℝ) : ℝ × ℝ :=
  (prev.1 + (cur.1 - prev.1) * t, prev.2 + (cur.2 - prev.2) * t)

/-- The accumulation loop of `point_on_linestring` (lines 148-158) over the
consecutive-vertex pairs: with `cum` accumulated so far, stop at the first
segment with `cum + d ≥ half` and interpolate at `t = (half - cum) / d`
(`t = 0` on a zero-length segment); `none` when the loop exhausts the pairs
(the caller then falls back to the last vertex). -/
noncomputable def walkToHalf (cum half : ℝ) : List ((ℝ × ℝ) × (ℝ × ℝ)) → Option (ℝ × ℝ)
  | [] => none
  | (prev, cur) :: rest =>
    let d := hypot (cur.1 - prev.1) (cur.2 - prev.2)
    if half ≤ cum + d then
      some (interpPoint prev cur (if d = 0 then 0 else (half - cum) / d))
    else walkToHalf (cum + d) half rest

/-- `point_on_linestring` (src/new_merge_traffic.py lines 120-159): choose
the coordinate path (a `LineString`'s own; a `MultiLineString`'s part with
the most vertices, `None` when it has no parts; `None` for other types or a
missing geometry), return `None` on an empty path, the first vertex for
`prefer='start'`; otherwise accumulate Euclidean segment lengths, return the
first vertex when the total is zero, else the interpolated point at half the
total arc length (last vertex as the loop's fallback).  The coordinate
rounding its caller applies afterwards is cosmetic and not modelled. -/
noncomputable def point_on_linestring (geometry : Option Geom) (prefer : String) :
    Option (ℝ × ℝ) :=
  match geometry with
  | none => none
  | some g =>
    match
      (match g with
       | .lineString cs => some cs
       | .multiLineString parts => if parts.isEmpty then none else some (maxByLen parts)
       | .other => none) with
    | none => none
    | some coords =>
      if coords.isEmpty then none
      else if prefer = "start" then coords.head?
      else
        let pairs := coords.zip coords.tail
        let total := (pairs.map (fun pc => hypot (pc.2.1 - pc.1.1) (pc.2.2 - pc.1.2))).sum
        if total = 0 then coords.head?
        else
          match walkToHalf 0 (total / 2) pairs with
          | some p => some p
          | none => coords.getLast?

/-- Declarative arc length of a polyline: the sum of the Euclidean lengths of
its consecutive-vertex segments. -/
noncomputable def arcLength : List (ℝ × ℝ) → ℝ
  | p :: q :: rest => hypot (q.1 - p.1) (q.2 - p.2) + arcLength (q :: rest)
  | _ => 0

/-- Declarative "point at arc length `s` along the polyline": walk whole
segments while `s` exceeds them, then interpolate linearly on the bracketing
segment; `none` on a polyline with fewer than two vertices. -/
noncomputable def pointAtArc (s : ℝ) : List (ℝ × ℝ) → Option (ℝ × ℝ)
  | p :: q :: rest =>
    let d := hypot (q.1 - p.1) (q.2 - p.2)
    if s ≤ d then some (interpPoint p q (if d = 0 then 0 else s / d))
    else pointAtArc (s - d) (q :: rest)
  | _ => none

/-! ## Geometry-export filter (src/new_merge_traffic.py lines 196-236) -/

/-- One row of the metric table as the export step reads it. -/
structure ExpRow where
  segment_key : String
  dept_id : String
  tyc_aadt : Option ℚ
  total_crashes : ℕ
deriving DecidableEq, Repr

/-- A GeoJSON feature of the combined TYC geometry map. -/
structure Feature where
  geometry : Option Geom

/-- Python `s.startswith(('R', 'L', 'X', 'U'))` for one-character prefixes:
a test on the first character. -/
def startsWithAny (s : String) (cs : List Char) : Bool :=
  match s.toList with
  | [] => false
  | c :: _ => cs.contains c

/-- The departmental exclusion mask of lines 200-203: `DEPT_ID` (stripped,
uppercased) starts with `R`, `L`, `X` or `U`, except that exactly `U-5832`
is kept. -/
def dept_exclude (dept_id : String) : Bool :=
  startsWithAny (pyStripUpper dept_id) ['R', 'L', 'X', 'U']
    && pyStripUpper dept_id != "U-5832"

/-- The combined row filter of lines 196-205: the coerced AADT is a number
`≥ 1`, and the departmental exclusion mask does not hit. -/
def passes_filter (r : ExpRow) : Bool :=
  (match r.tyc_aadt with
   | some a => decide ((1 : ℚ) ≤ a)
   | none => false)
  && !dept_exclude r.dept_id

/-- The export loop of lines 210-236: over the filtered rows in order, skip a
row whose key is absent from the geometry map or whose start-point projection
is `None`; otherwise append a point feature (the row with its projected
point) and, when the feature's geometry is non-null, a line feature (the row
with that geometry). -/
noncomputable def exportStep (geo : List (String × Feature))
    (acc : List (ExpRow × (ℝ × ℝ)) × List (ExpRow × Geom)) (r : ExpRow) :
    List (ExpRow × (ℝ × ℝ)) × List (ExpRow × Geom) :=
  match lookupAssoc geo r.segment_key with
  | none => acc
  | some feat =>
    match point_on_linestring feat.geometry "start" with
    | none => acc
    | some pt =>
      (acc.1 ++ [(r, pt)],
       match feat.geometry with
       | some g => acc.2 ++ [(r, g)]
       | none => acc.2)

noncomputable def exportFeatures (rows : List ExpRow) (geo : List (String × Feature)) :
    List (ExpRow × (ℝ × ℝ)) × List (ExpRow × Geom) :=
  (rows.filter passes_filter).foldl (exportStep geo) ([], [])

/-! ## Lemmas: splitting and digit strings -/

theorem splitOnChar_ne_nil (sep : Char) (l : List Char) : splitOnChar sep l ≠ [] := by
  cases l with
  | nil => simp [splitOnChar]
  | cons c rest =>
    unfold splitOnChar
    cases hsp : splitOnChar sep rest with
    | nil => simp
    | cons h1 t => by_cases hc : c = sep <;> simp [hc]

theorem splitOnChar_length (sep : Char) (l : List Char) :
    (splitOnChar sep l).length = l.count sep + 1 := by
  induction l with
  | nil => simp [splitOnChar]
  | cons c rest ih =>
    unfold splitOnChar
    cases hsp : splitOnChar sep rest with
    | nil => exact absurd hsp (splitOnChar_ne_nil sep rest)
    | cons h1 t =>
      rw [hsp] at ih
      by_cases hc : c = sep
      · subst hc; simp only [List.count_cons, if_pos rfl] at *; simp at *; omega
      · simp only [List.count_cons] at *; simp [hc] at *; omega

theorem splitOnChar_no_sep (sep : Char) (l : List Char) (h : ∀ c ∈ l, c ≠ sep) :
    splitOnChar sep l = [l] := by
  induction l with
  | nil => rfl
  | cons c rest ih =>
    have hc : c ≠ sep := h c (List.mem_cons_self c rest)
    unfold splitOnChar
    rw [ih (fun x hx => h x (List.mem_cons_of_mem c hx))]
    simp [hc]

theorem splitOnChar_cons (sep c : Char) (rest : List Char) :
    splitOnChar sep (c :: rest) =
      match splitOnChar sep rest with
      | [] => [[]]
      | h :: t => if c = sep then [] :: h :: t else (c :: h) :: t := rfl

theorem splitOnChar_append_sep (sep : Char) (a b : List Char) (h : ∀ c ∈ a, c ≠ sep) :
    splitOnChar sep (a ++ sep :: b) = a :: splitOnChar sep b := by
  induction a with
  | nil =>
    rw [List.nil_append, splitOnChar_cons]
    cases hsp : splitOnChar sep b with
    | nil => exact absurd hsp (splitOnChar_ne_nil sep b)
    | cons h1 t => simp
  | cons c a ih =>
    have hc : c ≠ sep := h c (List.mem_cons_self c a)
    rw [List.cons_append, splitOnChar_cons, ih (fun x hx => h x (List.mem_cons_of_mem c hx))]
    simp [hc]

theorem isDigit_ne_plus {c : Char} (h : c.isDigit = true) : c ≠ '+' := by
  rintro rfl; exact absurd h (by decide)

theorem isDigit_ne_dot {c : Char} (h : c.isDigit = true) : c ≠ '.' := by
  rintro rfl; exact absurd h (by decide)

theorem digitsVal_cons_zero (l : List Char) : digitsVal ('0' :: l) = digitsVal l := by
  have h : 10 * 0 + digitVal '0' = 0 := by decide
  simp only [digitsVal, List.foldl_cons, h]

theorem digitsVal_dropWhile_zero (l : List Char) :
    digitsVal (l.dropWhile (· = '0')) = digitsVal l := by
  induction l with
  | nil => rfl
  | cons c rest ih =>
    by_cases hc : c = '0'
    · subst hc
      rw [List.dropWhile_cons_of_pos (by simp), ih, digitsVal_cons_zero]
    · rw [List.dropWhile_cons_of_neg (by simp [hc])]

theorem digitsVal_eq_zero_of_all_zero (l : List Char) (h : l.dropWhile (· = '0') = []) :
    digitsVal l = 0 := by
  induction l with
  | nil => rfl
  | cons c rest ih =>
    by_cases hc : c = '0'
    · subst hc
      rw [List.dropWhile_cons_of_pos (by simp)] at h
      rw [digitsVal_cons_zero]; exact ih h
    · rw [List.dropWhile_cons_of_neg (by simp [hc])] at h
      exact absurd h (by simp)

theorem mem_of_mem_dropWhile {α : Type} {p : α → Bool} {l : List α} {a : α}
    (h : a ∈ l.dropWhile p) : a ∈ l := by
  induction l with
  | nil => exact absurd h (by simp)
  | cons c rest ih =>
    by_cases hc : p c = true
    · rw [List.dropWhile_cons_of_pos hc] at h
      exact List.mem_cons_of_mem c (ih h)
    · rw [List.dropWhile_cons_of_neg (by simpa using hc)] at h
      exact h

theorem isDigits_all (l : List Char) (h : isDigits l = true) : ∀ c ∈ l, c.isDigit = true := by
  have h' := h
  simp only [isDigits, Bool.and_eq_true] at h'
  exact fun c hc => List.all_eq_true.mp h'.2 c hc

theorem parseFloat_digits (l : List Char) (h : isDigits l = true) :
    parseFloat (String.mk l) = some ((digitsVal l : ℚ)) := by
  have hnd : ∀ c ∈ l, c ≠ '.' := fun c hc => isDigit_ne_dot (isDigits_all l h c hc)
  unfold parseFloat
  rw [show (String.mk l).toList = l from rfl, splitOnChar_no_sep '.' l hnd]
  simp [h]

theorem parseFloat_lstrip_digits (l : List Char) (h : isDigits l = true) :
    parseFloat (String.mk (lstripZeroOr0 l)) = some ((digitsVal l : ℚ)) := by
  unfold lstripZeroOr0
  cases ht : l.dropWhile (· = '0') with
  | nil =>
    have h0 : digitsVal l = 0 := digitsVal_eq_zero_of_all_zero l ht
    rw [h0]
    show parseFloat (String.mk ['0']) = some (((0 : ℕ) : ℚ))
    rw [parseFloat_digits ['0'] (by decide)]
    norm_num [digitsVal, digitVal]
    decide
  | cons c t =>
    have hsub : isDigits (c :: t) = true := by
      have hmem : ∀ x ∈ (c :: t), x.isDigit = true := by
        intro x hx
        exact isDigits_all l h x (mem_of_mem_dropWhile (ht ▸ hx))
      simp only [isDigits, List.isEmpty_cons, Bool.not_false, Bool.true_and]
      exact List.all_eq_true.mpr hmem
    show parseFloat (String.mk (c :: t)) = some ((digitsVal l : ℚ))
    rw [parseFloat_digits _ hsub, ← digitsVal_dropWhile_zero l, ht]

/-! ## Lemmas: the milepost parsers -/

theorem parse_milepost_some (s : String) :
    parse_milepost (some s) =
      match splitOnChar '+' s.toList with
      | [p0, p1] =>
        match pyFloat (String.mk (lstripZeroOr0 p0)), pyFloat (String.mk p1) with
        | .ok a, .ok b => .ok (some (a + b))
        | _, _ => .ok none
      | _ => .ok none := rfl

theorem parse_milepost_accidents_some (s : String) :
    parse_milepost_accidents (some s) =
      match splitOnChar '+' s.toList with
      | [p0, p1] =>
        match pyFloat (String.mk p0), pyFloat (String.mk p1) with
        | .ok a, .ok b => .ok (some (a + b))
        | _, _ => .ok none
      | _ => .ok none := rfl

theorem parse_milepost_count_ne_one (s : String) (h : s.toList.count '+' ≠ 1) :
    parse_milepost (some s) = .ok none := by
  have hlen : (splitOnChar '+' s.toList).length ≠ 2 := by
    rw [splitOnChar_length]; omega
  rw [parse_milepost_some]
  cases hsp : splitOnChar '+' s.toList with
  | nil => rfl
  | cons p0 t =>
    cases t with
    | nil => rfl
    | cons p1 t2 =>
      cases t2 with
      | nil => rw [hsp] at hlen; simp at hlen
      | cons p2 t3 => rfl

theorem parse_milepost_wellformed (ds fs : List Char) (q : ℚ)
    (hds : isDigits ds = true)
    (hfs : parseFloat (String.mk fs) = some q)
    (hplus : ∀ c ∈ fs, c ≠ '+') :
    parse_milepost (some (String.mk (ds ++ '+' :: fs))) =
      .ok (some ((digitsVal ds : ℚ) + q)) := by
  have hdsp : ∀ c ∈ ds, c ≠ '+' := fun c hc => isDigit_ne_plus (isDigits_all ds hds c hc)
  rw [parse_milepost_some,
    show (String.mk (ds ++ '+' :: fs)).toList = ds ++ '+' :: fs from rfl,
    splitOnChar_append_sep '+' ds fs hdsp, splitOnChar_no_sep '+' fs hplus]
  have h1 : pyFloat (String.mk (lstripZeroOr0 ds)) = .ok ((digitsVal ds : ℚ)) := by
    unfold pyFloat; rw [parseFloat_lstrip_digits ds hds]
  have h2 : pyFloat (String.mk fs) = .ok q := by
    unfold pyFloat; rw [hfs]
  dsimp only
  rw [h1, h2]

theorem parse_milepost_total (mp : Option String) :
    ∃ r : Option ℚ, parse_milepost mp = .ok r := by
  cases mp with
  | none => exact ⟨none, rfl⟩
  | some s =>
    rw [parse_milepost_some]
    cases hsp : splitOnChar '+' s.toList with
    | nil => exact ⟨none, rfl⟩
    | cons p0 t =>
      cases t with
      | nil => exact ⟨none, rfl⟩
      | cons p1 t2 =>
        cases t2 with
        | cons p2 t3 => exact ⟨none, rfl⟩
        | nil =>
          dsimp only
          cases h1 : pyFloat (String.mk (lstripZeroOr0 p0)) with
          | error e => exact ⟨none, rfl⟩
          | ok a =>
            cases h2 : pyFloat (String.mk p1) with
            | error e => exact ⟨none, rfl⟩
            | ok b => exact ⟨some (a + b), rfl⟩

theorem parse_milepost_accidents_total (mp : Option String) :
    ∃ r : Option ℚ, parse_milepost_accidents mp = .ok r := by
  cases mp with
  | none => exact ⟨none, rfl⟩
  | some s =>
    rw [parse_milepost_accidents_some]
    cases hsp : splitOnChar '+' s.toList with
    | nil => exact ⟨none, rfl⟩
    | cons p0 t =>
      cases t with
      | nil => exact ⟨none, rfl⟩
      | cons p1 t2 =>
        cases t2 with
        | cons p2 t3 => exact ⟨none, rfl⟩
        | nil =>
          dsimp only
          cases h1 : pyFloat (String.mk p0) with
          | error e => exact ⟨none, rfl⟩
          | ok a =>
            cases h2 : pyFloat (String.mk p1) with
            | error e => exact ⟨none, rfl⟩
            | ok b => exact ⟨some (a + b), rfl⟩

/-! ## Claims C6 and C7: the milepost parser -/

/-- C6: for every well-formed `"<integer>+<decimal>"` string with numeric
operands, the canonical milepost parser returns the integer part plus the
decimal part, with leading zeros of the integer portion stripped (an integer
portion emptied by the strip counts as zero, so `"002+0.619"` parses to
2.619); and for every string that does not contain exactly one `'+'`
separator it returns null. -/
theorem claim_C6_milepost_parse :
    (∀ (ds fs : List Char) (q : ℚ),
        isDigits ds = true →
        parseFloat (String.mk fs) = some q →
        (∀ c ∈ fs, c ≠ '+') →
        parse_milepost (some (String.mk (ds ++ '+' :: fs))) =
          .ok (some ((digitsVal ds : ℚ) + q))) ∧
    (∀ s : String, s.toList.count '+' ≠ 1 → parse_milepost (some s) = .ok none) ∧
    parse_milepost (some "002+0.619") = .ok (some (2619 / 1000)) := by
  refine ⟨parse_milepost_wellformed, parse_milepost_count_ne_one, ?_⟩
  have hf : parseFloat (String.mk ['0', '.', '6', '1', '9']) = some ((619 : ℚ) / 1000) := by
    unfold parseFloat
    rw [show (String.mk ['0', '.', '6', '1', '9']).toList = ['0', '.', '6', '1', '9'] from rfl,
      show splitOnChar '.' ['0', '.', '6', '1', '9'] = [['0'], ['6', '1', '9']] from by decide]
    dsimp only
    rw [if_pos (by decide)]
    rw [show digitsVal ['0'] = 0 from by decide, show digitsVal ['6', '1', '9'] = 619 from by decide]
    norm_num
  have h := parse_milepost_wellformed ['0', '0', '2'] ['0', '.', '6', '1', '9'] ((619 : ℚ) / 1000)
    (by decide) hf (by decide)
  rw [show ("002+0.619" : String) =
      String.mk (['0', '0', '2'] ++ '+' :: ['0', '.', '6', '1', '9']) from rfl, h,
    show digitsVal ['0', '0', '2'] = 2 from by decide]
  norm_num

/-- C7 counterexample: the `manually_segment_routes` variant of the milepost
parser raises `ValueError` (modelled as `.error ()`) on the non-numeric,
separator-free string `"abc"`, against the claim that every parser variant
returns a value or null and never raises. -/
theorem claim_C7_counterexample :
    parse_milepost_manual (some "abc") = .error () := by
  rfl

/-- C7 (amended): the canonical parsers (merge_traffic / new_merge_traffic
and merge-traffic-accidents) return a value or null on every input and never
raise, while the manually_segment_routes variant can raise on a string whose
operands are non-numeric, e.g. `"1+x"`. -/
theorem claim_C7_parser_totality :
    (∀ mp : Option String, ∃ r : Option ℚ, parse_milepost mp = .ok r) ∧
    (∀ mp : Option String, ∃ r : Option ℚ, parse_milepost_accidents mp = .ok r) ∧
    parse_milepost_manual (some "1+x") = .error () := by
  refine ⟨parse_milepost_total, parse_milepost_accidents_total, ?_⟩
  rfl

/-! ## Claim C1: the corridor crash matcher -/

theorem find?_first {α : Type} (p : α → Bool) :
    ∀ (l : List α) (a : α), l.find? p = some a →
      ∃ l1 l2, l = l1 ++ a :: l2 ∧ p a = true ∧ ∀ x ∈ l1, p x = false := by
  intro l
  induction l with
  | nil => intro a h; simp [List.find?] at h
  | cons x rest ih =>
    intro a h
    by_cases hx : p x = true
    · rw [List.find?_cons_of_pos _ hx] at h
      obtain rfl : x = a := by injection h
      exact ⟨[], rest, rfl, hx, by simp⟩
    · have hx' : p x = false := by simpa using hx
      rw [List.find?_cons_of_neg _ (by simp [hx'])] at h
      obtain ⟨l1, l2, rfl, hpa, hl1⟩ := ih a h
      refine ⟨x :: l1, l2, rfl, hpa, ?_⟩
      intro y hy
      rcases List.mem_cons.mp hy with rfl | hy
      · exact hx'
      · exact hl1 y hy

theorem sectionContains_iff (r : ℚ) (sec : RoadSection) :
    sectionContains r sec = true ↔
      ∃ a b, sec.corr_mp_float = some a ∧ sec.corr_endmp_float = some b ∧
        a ≤ r ∧ r ≤ b := by
  unfold sectionContains
  cases ha : sec.corr_mp_float with
  | none => simp
  | some a =>
    cases hb : sec.corr_endmp_float with
    | none => simp
    | some b => simp

theorem match_crash_eq (rawCorr : String) (refPoint : Option ℚ) (idx : CorridorIndex) :
    match_crash_to_section rawCorr refPoint idx =
      match refPoint with
      | none => none
      | some ref =>
        match lookupAssoc idx (pyStripUpper rawCorr) with
        | none => none
        | some secs => secs.find? (sectionContains ref) := rfl

/-- C1: the matcher returns `none` exactly when the parsed reference point is
null, the normalized corridor id is unindexed, or no indexed section of the
corridor has both mileposts parsed with `start ≤ ref ≤ end`; otherwise it
returns the first containing section in stored order, and a returned section
always has `start ≤ end`.  The spec's "MT-200" example resolves to the first
of two touching segments, also at the shared boundary 3.0. -/
theorem claim_C1_crash_matcher :
    (∀ (rawCorr : String) (refPoint : Option ℚ) (idx : CorridorIndex),
        match_crash_to_section rawCorr refPoint idx = none ↔
          refPoint = none ∨ lookupAssoc idx (pyStripUpper rawCorr) = none ∨
          ∃ r secs, refPoint = some r ∧
            lookupAssoc idx (pyStripUpper rawCorr) = some secs ∧
            ∀ sec ∈ secs, ¬ ∃ a b, sec.corr_mp_float = some a ∧
              sec.corr_endmp_float = some b ∧ a ≤ r ∧ r ≤ b) ∧
    (∀ (rawCorr : String) (refPoint : Option ℚ) (idx : CorridorIndex) (r : ℚ)
        (secs : List RoadSection) (sec : RoadSection),
        refPoint = some r → lookupAssoc idx (pyStripUpper rawCorr) = some secs →
        match_crash_to_section rawCorr refPoint idx = some sec →
        (∃ l1 l2, secs = l1 ++ sec :: l2 ∧
          (∃ a b, sec.corr_mp_float = some a ∧ sec.corr_endmp_float = some b ∧
            a ≤ r ∧ r ≤ b) ∧
          ∀ x ∈ l1, ¬ ∃ a b, x.corr_mp_float = some a ∧ x.corr_endmp_float = some b ∧
            a ≤ r ∧ r ≤ b) ∧
        ∀ a b, sec.corr_mp_float = some a → sec.corr_endmp_float = some b → a ≤ b) ∧
    (match_crash_to_section "MT-200" (some (5 / 2))
        [("MT-200", [⟨"S1", some 2, some 3⟩, ⟨"S2", some 3, some 4⟩])] =
      some ⟨"S1", some 2, some 3⟩) ∧
    (match_crash_to_section "MT-200" (some 3)
        [("MT-200", [⟨"S1", some 2, some 3⟩, ⟨"S2", some 3, some 4⟩])] =
      some ⟨"S1", some 2, some 3⟩) := by
  have hlk : lookupAssoc
      [("MT-200", [(⟨"S1", some 2, some 3⟩ : RoadSection), ⟨"S2", some 3, some 4⟩])]
      (pyStripUpper "MT-200") =
      some [⟨"S1", some 2, some 3⟩, ⟨"S2", some 3, some 4⟩] := by
    rw [show pyStripUpper "MT-200" = "MT-200" from by decide]
    rfl
  refine ⟨?_, ?_, ?_, ?_⟩
  · intro rawCorr refPoint idx
    rw [match_crash_eq]
    cases refPoint with
    | none => simp
    | some r =>
      cases hlu : lookupAssoc idx (pyStripUpper rawCorr) with
      | none => simp
      | some secs =>
        constructor
        · intro h
          refine Or.inr (Or.inr ⟨r, secs, rfl, rfl, ?_⟩)
          intro sec hsec hex
          exact List.find?_eq_none.mp h sec hsec ((sectionContains_iff r sec).mpr hex)
        · rintro (h | h | ⟨r', secs', hr', hsecs', hall⟩)
          · exact absurd h (by simp)
          · exact absurd h (by simp)
          · obtain rfl : r = r' := by injection hr' with h'
            obtain rfl : secs = secs' := by injection hsecs' with h'
            apply List.find?_eq_none.mpr
            intro sec hsec hcontains
            exact hall sec hsec ((sectionContains_iff r sec).mp hcontains)
  · intro rawCorr refPoint idx r secs sec href hlu hmatch
    subst href
    rw [match_crash_eq, hlu] at hmatch
    obtain ⟨l1, l2, rfl, hpa, hl1⟩ := find?_first (sectionContains r) secs sec hmatch
    obtain ⟨a, b, ha, hb, har, hrb⟩ := (sectionContains_iff r sec).mp hpa
    refine ⟨⟨l1, l2, rfl, ⟨a, b, ha, hb, har, hrb⟩, ?_⟩, ?_⟩
    · intro x hx hex
      rw [← sectionContains_iff] at hex
      rw [hl1 x hx] at hex
      exact absurd hex (by simp)
    · intro a' b' ha' hb'
      obtain rfl : a = a' := by rw [ha] at ha'; injection ha'
      obtain rfl : b = b' := by rw [hb] at hb'; injection hb'
      exact le_trans har hrb
  · rw [match_crash_eq]
    dsimp only
    rw [hlk]
    dsimp only
    rw [List.find?_cons_of_pos _
      ((sectionContains_iff (5 / 2) ⟨"S1", some 2, some 3⟩).mpr
        ⟨2, 3, rfl, rfl, by norm_num, by norm_num⟩)]
  · rw [match_crash_eq]
    dsimp only
    rw [hlk]
    dsimp only
    rw [List.find?_cons_of_pos _
      ((sectionContains_iff 3 ⟨"S1", some 2, some 3⟩).mpr
        ⟨2, 3, rfl, rfl, by norm_num, by norm_num⟩)]

/-! ## Claims C2 and C3: the multi-year averager -/

theorem foldl_updateYear_all_present (vs : List ℚ) :
    ∀ (a : ℚ) (n : ℕ), 0 < n →
      (vs.map (fun v => some (some v))).foldl updateYear ⟨some a, n⟩ =
        ⟨some ((a * n + vs.sum) / (n + vs.length)), n + vs.length⟩ := by
  induction vs with
  | nil =>
    intro a n hn
    have hq : ((n : ℚ)) ≠ 0 := Nat.cast_ne_zero.mpr hn.ne'
    simp only [List.map_nil, List.foldl_nil, List.sum_nil, List.length_nil,
      AvgState.mk.injEq, Option.some.injEq]
    constructor
    · push_cast
      field_simp
    · omega
  | cons v vs ih =>
    intro a n hn
    simp only [List.map_cons, List.foldl_cons, List.sum_cons, List.length_cons]
    rw [show updateYear ⟨some a, n⟩ (some (some v)) =
        ⟨some ((a * (n : ℚ) + v) / ((n : ℚ) + 1)), n + 1⟩ from rfl]
    rw [ih _ (n + 1) (Nat.succ_pos n)]
    have h1 : ((n : ℚ) + 1) ≠ 0 := by positivity
    simp only [AvgState.mk.injEq, Option.some.injEq]
    constructor
    · push_cast
      field_simp
      ring
    · omega

theorem foldl_updateYear_frozen (obs : List (Option (Option ℚ))) :
    ∀ s : AvgState, s.aadt = none → obs.foldl updateYear s = s := by
  induction obs with
  | nil => intro s h; rfl
  | cons o rest ih =>
    intro s h
    have hstep : updateYear s o = s := by
      unfold updateYear
      cases o with
      | none => rfl
      | some v =>
        cases v with
        | none => rfl
        | some q => rw [h]
    rw [List.foldl_cons, hstep, ih s h]

theorem foldl_updateYear_years_count (obs : List (Option (Option ℚ))) :
    ∀ s : AvgState, (obs.foldl updateYear s).years = s.years + contribCount s obs := by
  induction obs with
  | nil => intro s; simp [contribCount]
  | cons o rest ih =>
    intro s
    rw [List.foldl_cons, ih (updateYear s o)]
    have hy : (updateYear s o).years = s.years + (if contributes s o then 1 else 0) := by
      unfold updateYear contributes
      cases o with
      | none => simp
      | some v =>
        cases v with
        | none => simp
        | some q =>
          cases ha : s.aadt with
          | none => simp
          | some cur => simp
    rw [hy, show contribCount s (o :: rest) =
        (if contributes s o then 1 else 0) + contribCount (updateYear s o) rest from rfl]
    ring

/-- C2: for a segment observed with a non-null value in the baseline year and
in every folded year (the running average never null), the incremental fold
yields the arithmetic mean of all observed values — `[A, B, C]` averages to
`(A + B + C) / 3` — and the result is invariant under any traversal order of
the observed values. -/
theorem claim_C2_incremental_mean :
    (∀ (A : ℚ) (vs : List ℚ),
        calculate_averaged_traffic (some A) (vs.map (fun v => some (some v))) =
          ⟨some ((A + vs.sum) / (1 + vs.length)), 1 + vs.length⟩) ∧
    (∀ A B C : ℚ,
        calculate_averaged_traffic (some A) ([B, C].map (fun v => some (some v))) =
          ⟨some ((A + B + C) / 3), 3⟩) ∧
    (∀ (A A' : ℚ) (vs vs' : List ℚ), (A :: vs).Perm (A' :: vs') →
        calculate_averaged_traffic (some A) (vs.map (fun v => some (some v))) =
          calculate_averaged_traffic (some A') (vs'.map (fun v => some (some v)))) := by
  have key : ∀ (A : ℚ) (vs : List ℚ),
      calculate_averaged_traffic (some A) (vs.map (fun v => some (some v))) =
        ⟨some ((A + vs.sum) / (1 + vs.length)), 1 + vs.length⟩ := by
    intro A vs
    unfold calculate_averaged_traffic
    rw [foldl_updateYear_all_present vs A 1 Nat.one_pos]
    simp only [AvgState.mk.injEq, Option.some.injEq]
    constructor
    · norm_num
    · trivial
  refine ⟨key, ?_, ?_⟩
  · intro A B C
    rw [key]
    simp only [AvgState.mk.injEq, Option.some.injEq, List.sum_cons, List.sum_nil,
      List.length_cons, List.length_nil]
    constructor
    · push_cast
      ring_nf
    · trivial
  · intro A A' vs vs' hperm
    have hlen : vs.length = vs'.length := by
      have h := hperm.length_eq
      simpa using h
    have hsum : A + vs.sum = A' + vs'.sum := by
      have h := hperm.sum_eq
      simpa using h
    rw [key, key, hsum, hlen]

/-- C3: once a segment's running AADT is null at any point of the fold, no
later observation updates the average or the counter (the average never
recovers); and after the fold, years-with-data equals one plus the number of
folded years whose observation had the key present with a non-null value
while the running value was still non-null. -/
theorem claim_C3_null_freeze :
    (∀ (baseAadt : Option ℚ) (pre post : List (Option (Option ℚ))),
        (calculate_averaged_traffic baseAadt pre).aadt = none →
        calculate_averaged_traffic baseAadt (pre ++ post) =
          calculate_averaged_traffic baseAadt pre) ∧
    (∀ (s : AvgState) (obs : List (Option (Option ℚ))), s.aadt = none →
        obs.foldl updateYear s = s) ∧
    (∀ (baseAadt : Option ℚ) (obs : List (Option (Option ℚ))),
        (calculate_averaged_traffic baseAadt obs).years =
          1 + contribCount ⟨baseAadt, 1⟩ obs) := by
  refine ⟨?_, fun s obs h => foldl_updateYear_frozen obs s h, ?_⟩
  · intro baseAadt pre post h
    unfold calculate_averaged_traffic at *
    rw [List.foldl_append]
    exact foldl_updateYear_frozen post _ h
  · intro baseAadt obs
    unfold calculate_averaged_traffic
    rw [foldl_updateYear_years_count obs ⟨baseAadt, 1⟩]

/-! ## Claims C4, C5 and C9: derived metrics -/

theorem rowMetrics_def (r : SegmentRow) (ty : ℕ) :
    rowMetrics r ty =
      { miles_driven :=
          match r.sec_lnt_mi, r.tyc_aadt with
          | some l, some a => some (l * a)
          | _, _ => none
        avg_crashes := (r.total_crashes : ℚ) / (ty : ℚ)
        cars_per_acc :=
          if 0 < (r.total_crashes : ℚ) / (ty : ℚ) then
            r.tyc_aadt.map (fun a => a / ((r.total_crashes : ℚ) / (ty : ℚ)))
          else none
        miles_per_acc :=
          if 0 < (r.total_crashes : ℚ) / (ty : ℚ) then
            (match r.sec_lnt_mi, r.tyc_aadt with
             | some l, some a => some (l * a)
             | _, _ => none).map (fun m => m / ((r.total_crashes : ℚ) / (ty : ℚ)))
          else none } := rfl

/-- C4: `AVG_CRASHES` is `TOTAL_CRASHES` divided by the fixed length of the
configured year list, independent of the per-segment years-with-data counter;
on the spec's example segment (length 2.0, AADT 1000, 5-year window, 10
crashes) the derived metrics are `AVG_CRASHES = 2`, `MILES_DRIVEN = 2000`,
`CARS_PER_ACC = 500`, `MILES_PER_ACC = 1000`. -/
theorem claim_C4_avg_crashes_divisor :
    (∀ (r : SegmentRow) (totalYears : ℕ),
        (rowMetrics r totalYears).avg_crashes =
          (r.total_crashes : ℚ) / (totalYears : ℚ)) ∧
    (∀ (r : SegmentRow) (totalYears n : ℕ),
        rowMetrics { r with years_with_data := n } totalYears = rowMetrics r totalYears) ∧
    (rowMetrics ⟨some 2, some 1000, 3, 10⟩ 5 = ⟨some 2000, 2, some 500, some 1000⟩) := by
  refine ⟨fun r ty => rfl, fun r ty n => rfl, ?_⟩
  rw [rowMetrics_def]
  dsimp only
  norm_num

/-- C5: the per-accident ratios are computed (as `AADT / AVG_CRASHES` and
`MILES_DRIVEN / AVG_CRASHES`) only on rows with `AVG_CRASHES > 0` and are
null otherwise — a zero-crash segment has both ratios null and no division by
zero occurs; in the per-year/average variant of merge-traffic-accidents,
every persisted aggregated crash count is positive, so its unguarded
divisions never divide by zero either. -/
theorem claim_C5_ratio_null_guard :
    (∀ (r : SegmentRow) (ty : ℕ), (rowMetrics r ty).avg_crashes = 0 →
        (rowMetrics r ty).cars_per_acc = none ∧ (rowMetrics r ty).miles_per_acc = none) ∧
    (∀ (r : SegmentRow) (ty : ℕ), 0 < (rowMetrics r ty).avg_crashes →
        (rowMetrics r ty).cars_per_acc =
          r.tyc_aadt.map (fun a => a / (rowMetrics r ty).avg_crashes) ∧
        (rowMetrics r ty).miles_per_acc =
          (rowMetrics r ty).miles_driven.map
            (fun m => m / (rowMetrics r ty).avg_crashes)) ∧
    (rowMetrics ⟨some 2, some 1000, 1, 0⟩ 5 = ⟨some 2000, 0, none, none⟩) ∧
    (∀ (matchedKeys : List String) (p : String × ℕ),
        p ∈ aggCrashes matchedKeys → 0 < p.2) := by
  refine ⟨?_, ?_, ?_, ?_⟩
  · intro r ty h
    rw [rowMetrics_def] at h
    dsimp only at h
    rw [rowMetrics_def]
    dsimp only
    rw [if_neg (by rw [h]; exact lt_irrefl 0), if_neg (by rw [h]; exact lt_irrefl 0)]
    exact ⟨rfl, rfl⟩
  · intro r ty h
    rw [rowMetrics_def] at h
    dsimp only at h
    rw [rowMetrics_def]
    dsimp only
    rw [if_pos h, if_pos h]
    exact ⟨rfl, rfl⟩
  · rw [rowMetrics_def]
    dsimp only
    norm_num
  · intro matchedKeys p hp
    unfold aggCrashes at hp
    obtain ⟨k, hk, rfl⟩ := List.mem_map.mp hp
    dsimp only
    exact List.count_pos_iff.mpr (List.mem_dedup.mp hk)

/-- C9 counterexample: on a segment with `MILES_DRIVEN = 2000` and
`AVG_CRASHES = 2` in the 5-year configuration, the code's `PER_100M_VMT`
(which scales `MILES_DRIVEN` by 365.25 only) differs from the claimed
`days_per_year × observation_years` scaling. -/
theorem claim_C9_counterexample :
    per_100m_vmt 2 (some 2000) ≠ per_100m_vmt_claimed 2 (some 2000) 5 := by
  unfold per_100m_vmt per_100m_vmt_claimed annual_vmt
  simp only [Option.map_some']
  rw [if_pos (by norm_num)]
  simp only [ne_eq, Option.some.injEq]
  norm_num

/-- C9 (amended): the annualization factor the code applies to `MILES_DRIVEN`
before taking the per-100M-VMT rate is `days_per_year` (365.25) alone —
equivalently the claimed `days_per_year × observation_years` with
`observation_years = 1` — computed only when the annualized VMT is positive
and left null otherwise (in particular for null `MILES_DRIVEN`). -/
theorem claim_C9_per_vmt_factor :
    (∀ avgCrashes : ℚ, per_100m_vmt avgCrashes none = none) ∧
    (∀ (avgCrashes md : ℚ), 0 < md →
        per_100m_vmt avgCrashes (some md) =
          some (avgCrashes / (md * (1461 / 4)) * 100000000)) ∧
    (∀ (avgCrashes md : ℚ), ¬ 0 < md → per_100m_vmt avgCrashes (some md) = none) ∧
    (∀ (avgCrashes md : ℚ), 0 < md →
        per_100m_vmt avgCrashes (some md) = per_100m_vmt_claimed avgCrashes (some md) 1) ∧
    (per_100m_vmt 2 (some 2000) = some (400000 / 1461)) := by
  have hpos : ∀ md : ℚ, 0 < md → 0 < md * (1461 / 4 : ℚ) := by
    intro md h
    have : (0 : ℚ) < 1461 / 4 := by norm_num
    exact mul_pos h this
  have hneg : ∀ md : ℚ, ¬ 0 < md → ¬ 0 < md * (1461 / 4 : ℚ) := by
    intro md h hlt
    apply h
    by_contra hmd
    push_neg at hmd
    have : md * (1461 / 4 : ℚ) ≤ 0 :=
      mul_nonpos_iff.mpr (Or.inr ⟨hmd, by norm_num⟩)
    exact absurd hlt (not_lt.mpr this)
  refine ⟨fun a => rfl, ?_, ?_, ?_, ?_⟩
  · intro a md h
    unfold per_100m_vmt annual_vmt
    simp only [Option.map_some']
    rw [if_pos (hpos md h)]
  · intro a md h
    unfold per_100m_vmt annual_vmt
    simp only [Option.map_some']
    rw [if_neg (hneg md h)]
  · intro a md h
    unfold per_100m_vmt per_100m_vmt_claimed annual_vmt
    simp only [Option.map_some']
    rw [if_pos (hpos md h)]
    norm_num
  · unfold per_100m_vmt annual_vmt
    simp only [Option.map_some']
    rw [if_pos (by norm_num)]
    norm_num

/-! ## Claim C8: the geometry projector -/

theorem hypot_nonneg (x y : ℝ) : 0 ≤ hypot x y := Real.sqrt_nonneg _

theorem hypot_eval (x y c : ℝ) (hc : 0 ≤ c) (h : x ^ 2 + y ^ 2 = c ^ 2) :
    hypot x y = c := by
  rw [hypot, h, Real.sqrt_sq hc]

theorem arcLength_nonneg : ∀ coords : List (ℝ × ℝ), 0 ≤ arcLength coords
  | [] => le_refl 0
  | [_] => le_refl 0
  | p :: q :: rest => by
    have h1 : 0 ≤ hypot (q.1 - p.1) (q.2 - p.2) := hypot_nonneg _ _
    have h2 := arcLength_nonneg (q :: rest)
    show 0 ≤ hypot (q.1 - p.1) (q.2 - p.2) + arcLength (q :: rest)
    linarith

theorem sum_segLengths_eq_arcLength : ∀ coords : List (ℝ × ℝ),
    ((coords.zip coords.tail).map
      (fun pc => hypot (pc.2.1 - pc.1.1) (pc.2.2 - pc.1.2))).sum = arcLength coords := by
  intro coords
  induction coords with
  | nil => rfl
  | cons p rest ih =>
    cases rest with
    | nil => rfl
    | cons q rest2 =>
      show hypot (q.1 - p.1) (q.2 - p.2) +
          (((q :: rest2).zip (q :: rest2).tail).map
            (fun pc => hypot (pc.2.1 - pc.1.1) (pc.2.2 - pc.1.2))).sum =
        hypot (q.1 - p.1) (q.2 - p.2) + arcLength (q :: rest2)
      rw [ih]

theorem walkToHalf_eq_pointAtArc (coords : List (ℝ × ℝ)) :
    ∀ cum half : ℝ,
      walkToHalf cum half (coords.zip coords.tail) = pointAtArc (half - cum) coords := by
  induction coords with
  | nil => intro cum half; rfl
  | cons p rest ih =>
    cases rest with
    | nil => intro cum half; rfl
    | cons q rest2 =>
      intro cum half
      show (if half ≤ cum + hypot (q.1 - p.1) (q.2 - p.2) then
          some (interpPoint p q
            (if hypot (q.1 - p.1) (q.2 - p.2) = 0 then 0
             else (half - cum) / hypot (q.1 - p.1) (q.2 - p.2)))
        else walkToHalf (cum + hypot (q.1 - p.1) (q.2 - p.2)) half
          ((q :: rest2).zip (q :: rest2).tail)) =
        (if half - cum ≤ hypot (q.1 - p.1) (q.2 - p.2) then
          some (interpPoint p q
            (if hypot (q.1 - p.1) (q.2 - p.2) = 0 then 0
             else (half - cum) / hypot (q.1 - p.1) (q.2 - p.2)))
        else pointAtArc (half - cum - hypot (q.1 - p.1) (q.2 - p.2)) (q :: rest2))
      by_cases hc : half ≤ cum + hypot (q.1 - p.1) (q.2 - p.2)
      · rw [if_pos hc]
        rw [if_pos (show half - cum ≤ hypot (q.1 - p.1) (q.2 - p.2) by linarith)]
      · rw [if_neg hc]
        rw [if_neg (show ¬ half - cum ≤ hypot (q.1 - p.1) (q.2 - p.2) by
          intro hle; exact hc (by linarith))]
        rw [ih (cum + hypot (q.1 - p.1) (q.2 - p.2)) half]
        congr 1
        ring

theorem pointAtArc_isSome : ∀ (p q : ℝ × ℝ) (rest : List (ℝ × ℝ)) (s : ℝ),
    s ≤ arcLength (p :: q :: rest) → ∃ pt, pointAtArc s (p :: q :: rest) = some pt := by
  intro p q rest
  induction rest generalizing p q with
  | nil =>
    intro s hs
    have harc : arcLength [p, q] = hypot (q.1 - p.1) (q.2 - p.2) + 0 := rfl
    show ∃ pt, (if s ≤ hypot (q.1 - p.1) (q.2 - p.2) then
        some (interpPoint p q
          (if hypot (q.1 - p.1) (q.2 - p.2) = 0 then 0
           else s / hypot (q.1 - p.1) (q.2 - p.2)))
      else pointAtArc (s - hypot (q.1 - p.1) (q.2 - p.2)) [q]) = some pt
    rw [if_pos (by rw [harc] at hs; linarith)]
    exact ⟨_, rfl⟩
  | cons r rest2 ih =>
    intro s hs
    have harc : arcLength (p :: q :: r :: rest2) =
        hypot (q.1 - p.1) (q.2 - p.2) + arcLength (q :: r :: rest2) := rfl
    show ∃ pt, (if s ≤ hypot (q.1 - p.1) (q.2 - p.2) then
        some (interpPoint p q
          (if hypot (q.1 - p.1) (q.2 - p.2) = 0 then 0
           else s / hypot (q.1 - p.1) (q.2 - p.2)))
      else pointAtArc (s - hypot (q.1 - p.1) (q.2 - p.2)) (q :: r :: rest2)) = some pt
    by_cases hd : s ≤ hypot (q.1 - p.1) (q.2 - p.2)
    · rw [if_pos hd]
      exact ⟨_, rfl⟩
    · rw [if_neg hd]
      apply ih
      rw [harc] at hs
      linarith

theorem point_on_linestring_lineString (coords : List (ℝ × ℝ)) (prefer : String) :
    point_on_linestring (some (.lineString coords)) prefer =
      if coords.isEmpty then none
      else if prefer = "start" then coords.head?
      else
        if ((coords.zip coords.tail).map
            (fun pc => hypot (pc.2.1 - pc.1.1) (pc.2.2 - pc.1.2))).sum = 0 then
          coords.head?
        else
          match walkToHalf 0
              (((coords.zip coords.tail).map
                (fun pc => hypot (pc.2.1 - pc.1.1) (pc.2.2 - pc.1.2))).sum / 2)
              (coords.zip coords.tail) with
          | some p => some p
          | none => coords.getLast? := rfl

theorem point_on_linestring_midpoint_arc (coords : List (ℝ × ℝ))
    (h : arcLength coords ≠ 0) :
    point_on_linestring (some (.lineString coords)) "midpoint" =
      pointAtArc (arcLength coords / 2) coords := by
  cases coords with
  | nil => exact absurd rfl h
  | cons p rest =>
    cases rest with
    | nil => exact absurd rfl h
    | cons q rest2 =>
      rw [point_on_linestring_lineString]
      rw [if_neg (by simp)]
      rw [if_neg (by decide)]
      rw [sum_segLengths_eq_arcLength (p :: q :: rest2)]
      rw [if_neg h]
      rw [walkToHalf_eq_pointAtArc (p :: q :: rest2) 0 (arcLength (p :: q :: rest2) / 2)]
      rw [sub_zero]
      have hpos : 0 < arcLength (p :: q :: rest2) :=
        lt_of_le_of_ne (arcLength_nonneg _) (Ne.symm h)
      obtain ⟨pt, hpt⟩ := pointAtArc_isSome p q rest2 (arcLength (p :: q :: rest2) / 2)
        (by linarith)
      rw [hpt]

/-- C8 counterexample: on a one-vertex path the projector returns the vertex
itself (the zero-total-length branch), not null, refuting the claim that a
path with fewer than 2 vertices yields null. -/
theorem claim_C8_counterexample :
    point_on_linestring (some (.lineString [((0 : ℝ), (0 : ℝ))])) "midpoint" =
      some (0, 0) := by
  rw [point_on_linestring_lineString]
  rw [if_neg (by simp)]
  rw [if_neg (by decide)]
  rw [if_pos (by simp)]
  rfl

/-- C8 (amended): the "midpoint" preference walks the path until half the
total Euclidean arc length and interpolates between the bracketing vertices
(equal to the declarative point-at-arc-length function at `total / 2`; on the
3-vertex path `(0,0)-(0,3)-(0,10)` of arc length 10 this is `(0,5)`, not the
middle vertex), a path of zero total length — including a single-vertex
path — returns its first vertex, and an empty path (or missing geometry)
returns null. -/
theorem claim_C8_midpoint_projection :
    (∀ prefer : String, point_on_linestring none prefer = none) ∧
    (point_on_linestring (some (.lineString [])) "midpoint" = none) ∧
    (∀ p : ℝ × ℝ, point_on_linestring (some (.lineString [p])) "midpoint" = some p) ∧
    (∀ coords : List (ℝ × ℝ), coords ≠ [] → arcLength coords = 0 →
        point_on_linestring (some (.lineString coords)) "midpoint" = coords.head?) ∧
    (∀ coords : List (ℝ × ℝ), arcLength coords ≠ 0 →
        point_on_linestring (some (.lineString coords)) "midpoint" =
          pointAtArc (arcLength coords / 2) coords) ∧
    (point_on_linestring (some (.lineString [((0 : ℝ), 0), (0, 3), (0, 10)])) "midpoint" =
      some (0, 5)) := by
  refine ⟨fun prefer => rfl, rfl, ?_, ?_, point_on_linestring_midpoint_arc, ?_⟩
  · intro p
    rw [point_on_linestring_lineString]
    rw [if_neg (by simp)]
    rw [if_neg (by decide)]
    rw [if_pos (by simp)]
    rfl
  · intro coords hne harc
    rw [point_on_linestring_lineString]
    rw [if_neg (by simp [hne])]
    rw [if_neg (by decide)]
    rw [if_pos (by rw [sum_segLengths_eq_arcLength]; exact harc)]
  · have h3 : hypot ((0 : ℝ) - 0) (3 - 0) = 3 := hypot_eval _ _ 3 (by norm_num) (by norm_num)
    have h7 : hypot ((0 : ℝ) - 0) (10 - 3) = 7 := hypot_eval _ _ 7 (by norm_num) (by norm_num)
    have harc : arcLength [((0 : ℝ), 0), (0, 3), (0, 10)] = 10 := by
      show hypot ((0 : ℝ) - 0) (3 - 0) + (hypot ((0 : ℝ) - 0) (10 - 3) + 0) = 10
      rw [h3, h7]
      norm_num
    rw [point_on_linestring_midpoint_arc _ (by rw [harc]; norm_num), harc]
    show (if (10 : ℝ) / 2 ≤ hypot ((0 : ℝ) - 0) (3 - 0) then
        some (interpPoint (0, 0) (0, 3)
          (if hypot ((0 : ℝ) - 0) (3 - 0) = 0 then 0
           else 10 / 2 / hypot ((0 : ℝ) - 0) (3 - 0)))
      else pointAtArc (10 / 2 - hypot ((0 : ℝ) - 0) (3 - 0)) [(0, 3), (0, 10)]) =
      some (0, 5)
    rw [h3]
    rw [if_neg (by norm_num)]
    show (if (10 : ℝ) / 2 - 3 ≤ hypot ((0 : ℝ) - 0) (10 - 3) then
        some (interpPoint (0, 3) (0, 10)
          (if hypot ((0 : ℝ) - 0) (10 - 3) = 0 then 0
           else (10 / 2 - 3) / hypot ((0 : ℝ) - 0) (10 - 3)))
      else pointAtArc (10 / 2 - 3 - hypot ((0 : ℝ) - 0) (10 - 3)) [(0, 10)]) =
      some (0, 5)
    rw [h7]
    rw [if_pos (by norm_num), if_neg (by norm_num)]
    unfold interpPoint
    norm_num

/-! ## Claim C10: the geometry-export filter -/

theorem passes_filter_iff (r : ExpRow) :
    passes_filter r = true ↔
      (∃ a, r.tyc_aadt = some a ∧ (1 : ℚ) ≤ a) ∧
      ¬(startsWithAny (pyStripUpper r.dept_id) ['R', 'L', 'X', 'U'] = true ∧
        pyStripUpper r.dept_id ≠ "U-5832") := by
  unfold passes_filter dept_exclude
  cases ha : r.tyc_aadt with
  | none => simp
  | some a =>
    cases hsw : startsWithAny (pyStripUpper r.dept_id) ['R', 'L', 'X', 'U'] with
    | false => simp [hsw]
    | true =>
      cases hbe : pyStripUpper r.dept_id != "U-5832" with
      | false =>
        have heq : pyStripUpper r.dept_id = "U-5832" := by simpa using hbe
        simp [heq]
      | true =>
        have hne : pyStripUpper r.dept_id ≠ "U-5832" := by simpa using hbe
        simp [hne]

theorem exportStep_points_mem (geo : List (String × Feature)) :
    ∀ (l : List ExpRow) (acc : List (ExpRow × (ℝ × ℝ)) × List (ExpRow × Geom))
      (r : ExpRow) (pt : ℝ × ℝ),
      (r, pt) ∈ (l.foldl (exportStep geo) acc).1 →
        (r, pt) ∈ acc.1 ∨ (r ∈ l ∧ (lookupAssoc geo r.segment_key).isSome = true) := by
  intro l
  induction l with
  | nil => intro acc r pt h; exact Or.inl h
  | cons a l ih =>
    intro acc r pt h
    rw [List.foldl_cons] at h
    rcases ih _ r pt h with hmem | ⟨hl, hlk⟩
    · unfold exportStep at hmem
      cases hlu : lookupAssoc geo a.segment_key with
      | none => rw [hlu] at hmem; exact Or.inl hmem
      | some feat =>
        rw [hlu] at hmem
        dsimp only at hmem
        cases hpt : point_on_linestring feat.geometry "start" with
        | none => rw [hpt] at hmem; exact Or.inl hmem
        | some p =>
          rw [hpt] at hmem
          dsimp only at hmem
          rcases List.mem_append.mp hmem with h1 | h2
          · exact Or.inl h1
          · have h3 := List.mem_singleton.mp h2
            obtain ⟨rfl, rfl⟩ : r = a ∧ pt = p := by
              constructor <;> [exact congrArg Prod.fst h3; exact congrArg Prod.snd h3]
            exact Or.inr ⟨List.mem_cons_self _ _, by rw [hlu]; rfl⟩
    · exact Or.inr ⟨List.mem_cons_of_mem a hl, hlk⟩

theorem exportStep_lines_mem (geo : List (String × Feature)) :
    ∀ (l : List ExpRow) (acc : List (ExpRow × (ℝ × ℝ)) × List (ExpRow × Geom))
      (r : ExpRow) (g : Geom),
      (r, g) ∈ (l.foldl (exportStep geo) acc).2 →
        (r, g) ∈ acc.2 ∨ (r ∈ l ∧ (lookupAssoc geo r.segment_key).isSome = true) := by
  intro l
  induction l with
  | nil => intro acc r g h; exact Or.inl h
  | cons a l ih =>
    intro acc r g h
    rw [List.foldl_cons] at h
    rcases ih _ r g h with hmem | ⟨hl, hlk⟩
    · unfold exportStep at hmem
      cases hlu : lookupAssoc geo a.segment_key with
      | none => rw [hlu] at hmem; exact Or.inl hmem
      | some feat =>
        rw [hlu] at hmem
        dsimp only at hmem
        cases hpt : point_on_linestring feat.geometry "start" with
        | none => rw [hpt] at hmem; exact Or.inl hmem
        | some p =>
          rw [hpt] at hmem
          dsimp only at hmem
          cases hg : feat.geometry with
          | none => rw [hg] at hmem; exact Or.inl hmem
          | some g0 =>
            rw [hg] at hmem
            dsimp only at hmem
            rcases List.mem_append.mp hmem with h1 | h2
            · exact Or.inl h1
            · have h3 := List.mem_singleton.mp h2
              obtain ⟨rfl, rfl⟩ : r = a ∧ g = g0 := by
                constructor <;> [exact congrArg Prod.fst h3; exact congrArg Prod.snd h3]
              exact Or.inr ⟨List.mem_cons_self _ _, by rw [hlu]; rfl⟩
    · exact Or.inr ⟨List.mem_cons_of_mem a hl, hlk⟩

/-- C10: a segment row contributes a point or line feature only when its
averaged AADT is a number `≥ 1` and its stripped-uppercased `DEPT_ID` does
not hit the `R`/`L`/`X`/`U` prefix exclusion (with `U-5832` explicitly
kept) — any row failing the filter, or whose key is absent from the geometry
map, appears in no exported feature.  A row passing all filters with a
mapped line geometry yields exactly its point and line features. -/
theorem claim_C10_export_filter :
    (∀ (rows : List ExpRow) (geo : List (String × Feature)) (r : ExpRow) (pt : ℝ × ℝ),
        (r, pt) ∈ (exportFeatures rows geo).1 →
        r ∈ rows ∧ (∃ a, r.tyc_aadt = some a ∧ (1 : ℚ) ≤ a) ∧
          ¬(startsWithAny (pyStripUpper r.dept_id) ['R', 'L', 'X', 'U'] = true ∧
            pyStripUpper r.dept_id ≠ "U-5832") ∧
          (lookupAssoc geo r.segment_key).isSome = true) ∧
    (∀ (rows : List ExpRow) (geo : List (String × Feature)) (r : ExpRow) (g : Geom),
        (r, g) ∈ (exportFeatures rows geo).2 →
        r ∈ rows ∧ (∃ a, r.tyc_aadt = some a ∧ (1 : ℚ) ≤ a) ∧
          ¬(startsWithAny (pyStripUpper r.dept_id) ['R', 'L', 'X', 'U'] = true ∧
            pyStripUpper r.dept_id ≠ "U-5832") ∧
          (lookupAssoc geo r.segment_key).isSome = true) ∧
    (exportFeatures [⟨"K", "U-5832", some 5, 0⟩]
        [("K", ⟨some (.lineString [((1 : ℝ), 2), (3, 4)])⟩)] =
      ([(⟨"K", "U-5832", some 5, 0⟩, ((1 : ℝ), 2))],
       [(⟨"K", "U-5832", some 5, 0⟩, .lineString [((1 : ℝ), 2), (3, 4)])])) := by
  refine ⟨?_, ?_, ?_⟩
  · intro rows geo r pt h
    unfold exportFeatures at h
    rcases exportStep_points_mem geo _ _ r pt h with hmem | ⟨hl, hlk⟩
    · exact absurd hmem (List.not_mem_nil _)
    · have hf := List.mem_filter.mp hl
      obtain ⟨haadt, hdept⟩ := (passes_filter_iff r).mp hf.2
      exact ⟨hf.1, haadt, hdept, hlk⟩
  · intro rows geo r g h
    unfold exportFeatures at h
    rcases exportStep_lines_mem geo _ _ r g h with hmem | ⟨hl, hlk⟩
    · exact absurd hmem (List.not_mem_nil _)
    · have hf := List.mem_filter.mp hl
      obtain ⟨haadt, hdept⟩ := (passes_filter_iff r).mp hf.2
      exact ⟨hf.1, haadt, hdept, hlk⟩
  · rfl

end MtDot
